import Mathlib

/- A shallow embedding of the cachified cache-orchestration core,
   translated from its TypeScript sources. JavaScript numbers that occur
   in the timing logic are integers or positive infinity, modelled by
   EInt; optional metadata fields distinguish undefined, null and a
   number, modelled by JsNum. Every function that reads Date.now() in
   the source takes the current time as an explicit argument instead. -/

namespace Cachified

/-- A JavaScript number restricted to integers and positive infinity. -/
inductive EInt where
  | inf
  | fin (n : Int)
deriving DecidableEq, Repr

/-- JavaScript addition: infinity absorbs. -/
def EInt.add : EInt → EInt → EInt
  | .inf, _ => .inf
  | _, .inf => .inf
  | .fin a, .fin b => .fin (a + b)

instance : Add EInt := ⟨EInt.add⟩

/-- JavaScript comparison a <= b. -/
def EInt.le : EInt → EInt → Bool
  | .fin a, .fin b => decide (a ≤ b)
  | _, .inf => true
  | .inf, .fin _ => false

/-- JavaScript comparison a < b. -/
def EInt.lt : EInt → EInt → Bool
  | .fin a, .fin b => decide (a < b)
  | .fin _, .inf => true
  | .inf, _ => false

/-- JavaScript truthiness of a number: zero is falsy. -/
def EInt.truthy : EInt → Bool
  | .fin n => decide (n ≠ 0)
  | .inf => true

/-- An optional JavaScript number field: undefined, null, or a number. -/
inductive JsNum where
  | undefined
  | null
  | num (v : EInt)
deriving DecidableEq, Repr

/-- JavaScript truthiness of an optional number field. -/
def JsNum.truthy : JsNum → Bool
  | .num v => v.truthy
  | _ => false

/-- The JavaScript coercion x || 0 applied to an optional number. -/
def JsNum.orZero : JsNum → EInt
  | .num v => if v.truthy then v else .fin 0
  | _ => .fin 0

/-- Cache entry metadata as in common.ts: createdTime is a finite
    timestamp, ttl and the stale windows are optional numbers; swv is
    the deprecated spelling of swr. -/
structure CacheMetadata where
  createdTime : Int
  ttl : JsNum
  swr : JsNum
  swv : JsNum
deriving DecidableEq, Repr

/-- common.ts staleWhileRevalidate: read swr unless it is undefined, in
    which case fall back to swv; coerce a falsy result to null. -/
def staleWhileRevalidate (m : CacheMetadata) : JsNum :=
  let x := match m.swr with | .undefined => m.swv | y => y
  if x.truthy then x else .null

/-- Return value of isExpired: false, the string stale, or true. -/
inductive Expiry where
  | valid
  | stale
  | expired
deriving DecidableEq, Repr

/-- isExpired.ts: classify a cache entry against the current time. -/
def isExpired (m : CacheMetadata) (now : Int) : Expiry :=
  if m.ttl = .null then .valid
  else
    let validUntil := EInt.fin m.createdTime + m.ttl.orZero
    let staleUntil := validUntil + (staleWhileRevalidate m).orZero
    if (EInt.fin now).le validUntil then .valid
    else if (EInt.fin now).le staleUntil then .stale
    else .expired

/-- Return value of shouldRefresh: false, stale, or now. -/
inductive Refresh where
  | no
  | stale
  | now
deriving DecidableEq, Repr

/-- shouldRefresh.ts, the version that reads the stale window through the
    staleWhileRevalidate helper. -/
def shouldRefresh (m : CacheMetadata) (t : Int) : Refresh :=
  if m.ttl ≠ .null then
    let valid := EInt.fin m.createdTime + m.ttl.orZero
    let stale := valid + (staleWhileRevalidate m).orZero
    if (EInt.fin t).le valid then .no
    else if (EInt.fin t).le stale then .stale
    else .now
  else .no

/-- The shouldRefresh variant local to the early cachified.ts: a falsy
    ttl means never refresh and the stale window is read from swv. -/
def shouldRefreshOld (m : CacheMetadata) (t : Int) : Refresh :=
  if m.ttl.truthy then
    let valid := EInt.fin m.createdTime + m.ttl.orZero
    let stale := valid + m.swv.orZero
    if (EInt.fin t).le valid then .no
    else if (EInt.fin t).le stale then .stale
    else .now
  else .no

/-- common.ts createCacheMetaData: apply the destructuring defaults
    (ttl null, swr 0, createdTime Date.now()), then map infinite
    durations to null. -/
def createCacheMetaData (ttl swr : JsNum) (createdTime : Option Int) (now : Int) : CacheMetadata :=
  let ttl := if ttl = .undefined then .null else ttl
  let swr := if swr = .undefined then .num (.fin 0) else swr
  { createdTime := createdTime.getD now
    ttl := if ttl = .num .inf then .null else ttl
    swr := if swr = .num .inf then .null else swr
    swv := .undefined }

theorem JsNum.orZero_num_fin (t : Int) : (JsNum.num (EInt.fin t)).orZero = EInt.fin t := by
  by_cases h : t = 0 <;> simp [JsNum.orZero, EInt.truthy, h]

theorem EInt.add_fin (a b : Int) : EInt.fin a + EInt.fin b = EInt.fin (a + b) := rfl

theorem EInt.le_fin (a b : Int) : (EInt.fin a).le (EInt.fin b) = decide (a ≤ b) := rfl

/-- C2: freshness classification is a pure function of the metadata and
    the current time. A null ttl is always fresh; a finite ttl gives
    fresh iff now <= createdTime + ttl, stale iff that bound is exceeded
    but now <= createdTime + ttl + staleWhileRevalidate, and expired
    otherwise. The four concrete cases for createdTime 0 and ttl 5 come
    out as the claim states. -/
theorem c2_isExpired_classification :
    (∀ (m : CacheMetadata) (now : Int), m.ttl = JsNum.null → isExpired m now = .valid) ∧
    (∀ (m : CacheMetadata) (t s now : Int), m.ttl = JsNum.num (.fin t) →
      (staleWhileRevalidate m).orZero = .fin s →
      ((isExpired m now = .valid ↔ now ≤ m.createdTime + t) ∧
       (isExpired m now = .stale ↔ (m.createdTime + t < now ∧ now ≤ m.createdTime + t + s)) ∧
       (isExpired m now = .expired ↔
         (m.createdTime + t < now ∧ m.createdTime + t + s < now)))) ∧
    isExpired ⟨0, .num (.fin 5), .undefined, .undefined⟩ 4 = .valid ∧
    isExpired ⟨0, .num (.fin 5), .undefined, .undefined⟩ 6 = .expired ∧
    isExpired ⟨0, .num (.fin 5), .num (.fin 10), .undefined⟩ 6 = .stale ∧
    isExpired ⟨0, .num (.fin 5), .num (.fin 10), .undefined⟩ 30 = .expired := by
  refine ⟨?_, ?_, by decide, by decide, by decide, by decide⟩
  · intro m now h
    simp [isExpired, h]
  · intro m t s now httl hswr
    simp only [isExpired, httl, JsNum.orZero_num_fin, hswr, EInt.add_fin, EInt.le_fin]
    refine ⟨?_, ?_, ?_⟩ <;> split_ifs with h1 h2 <;>
      simp_all

/-- Witness for C2 at a concrete input: the entry created at time 0 with
    ttl 5 and stale window 10 is stale at time 7. -/
theorem c2_isExpired_classification_witness :
    isExpired ⟨0, .num (.fin 5), .num (.fin 10), .undefined⟩ 7 = .stale :=
  (c2_isExpired_classification.2.1 ⟨0, .num (.fin 5), .num (.fin 10), .undefined⟩ 5 10 7
    rfl (by decide)).2.1.mpr (by decide)

/-- A well-typed cache entry. -/
structure CacheEntry (V : Type) where
  metadata : CacheMetadata
  value : V
deriving DecidableEq, Repr

/-- common.ts createCacheEntry: pair the value with metadata built by
    createCacheMetaData. -/
def createCacheEntry (v : V) (ttl swr : JsNum) (createdTime : Option Int) (now : Int) :
    CacheEntry V :=
  { metadata := createCacheMetaData ttl swr createdTime now, value := v }

/-- softPurge.ts, as a function of the entry currently stored under the
    key (none when the store holds nothing there): the result is the
    entry written back by cache.set, or none when no set call is made. -/
def softPurge (entry : Option (CacheEntry V)) (swrOverwrite : Option EInt) (now : Int) :
    Option (CacheEntry V) :=
  match entry with
  | none => none
  | some e =>
    if shouldRefresh e.metadata now ≠ .no then none
    else
      let ttl := if e.metadata.ttl.truthy then e.metadata.ttl.orZero else .inf
      let swr := (staleWhileRevalidate e.metadata).orZero
      let lt := now - e.metadata.createdTime
      let newSwr : EInt := match swrOverwrite with
        | none => ttl + swr
        | some ov => ov + EInt.fin lt
      some (createCacheEntry e.value (.num (.fin 0)) (.num newSwr) (some e.metadata.createdTime) now)

/-- C4 counterexample: a stale entry (created at 0, ttl 5, stale window
    10, observed at time 7) is neither absent nor expired, yet softPurge
    performs no store write on it, contradicting the claim that only
    absent or expired entries are skipped. -/
theorem c4_softPurge_counterexample :
    isExpired (⟨0, .num (.fin 5), .num (.fin 10), .undefined⟩ : CacheMetadata) 7 = .stale ∧
    softPurge (some (⟨⟨0, .num (.fin 5), .num (.fin 10), .undefined⟩, (0 : Int)⟩ : CacheEntry Int))
      none 7 = none := by
  decide

/-- C4 amended: softPurge performs no store write when the entry is
    absent or when it is no longer fresh (stale or expired, i.e. when
    shouldRefresh is truthy); for a fresh entry it overwrites keeping
    the same value and createdTime, setting ttl to 0 and the stale
    window to the override plus the time elapsed since createdTime when
    an override is given, or to previous ttl plus previous stale window
    otherwise; an entry with ttl 1000 and no stale window becomes
    ttl 0, swr 1000. -/
theorem c4_softPurge_amended :
    (∀ (V : Type) (ov : Option EInt) (now : Int), softPurge (V := V) none ov now = none) ∧
    (∀ (V : Type) (e : CacheEntry V) (ov : Option EInt) (now : Int),
      shouldRefresh e.metadata now ≠ .no → softPurge (some e) ov now = none) ∧
    (∀ (V : Type) (e : CacheEntry V) (now t s : Int),
      shouldRefresh e.metadata now = .no →
      e.metadata.ttl = .num (.fin t) → t ≠ 0 →
      (staleWhileRevalidate e.metadata).orZero = .fin s →
      softPurge (some e) none now =
        some ⟨⟨e.metadata.createdTime, .num (.fin 0), .num (.fin (t + s)), .undefined⟩, e.value⟩) ∧
    (∀ (V : Type) (e : CacheEntry V) (now ov : Int),
      shouldRefresh e.metadata now = .no →
      softPurge (some e) (some (.fin ov)) now =
        some ⟨⟨e.metadata.createdTime, .num (.fin 0),
          .num (.fin (ov + (now - e.metadata.createdTime))), .undefined⟩, e.value⟩) := by
  refine ⟨?_, ?_, ?_, ?_⟩
  · intro V ov now; rfl
  · intro V e ov now h
    simp [softPurge, h]
  · intro V e now t s hfresh httl ht hswr
    simp only [softPurge, hfresh, ne_eq, not_true_eq_false, if_false, httl, hswr,
      JsNum.orZero_num_fin]
    have htr : (JsNum.num (EInt.fin t)).truthy = true := by
      simp [JsNum.truthy, EInt.truthy, ht]
    simp [htr, httl, JsNum.orZero_num_fin, EInt.add_fin, createCacheEntry,
      createCacheMetaData]
  · intro V e now ov hfresh
    simp [softPurge, hfresh, EInt.add_fin, createCacheEntry, createCacheMetaData]

/-- Witness for the amended C4 at a concrete input: a fresh entry with
    ttl 1000 and no stale window is rewritten to ttl 0, swr 1000. -/
theorem c4_softPurge_amended_witness :
    softPurge (some (⟨⟨0, .num (.fin 1000), .undefined, .undefined⟩, (7 : Int)⟩ : CacheEntry Int))
      none 500 =
      some ⟨⟨0, .num (.fin 0), .num (.fin (1000 + 0)), .undefined⟩, 7⟩ :=
  c4_softPurge_amended.2.2.1 Int ⟨⟨0, .num (.fin 1000), .undefined, .undefined⟩, 7⟩ 500 1000 0
    (by decide) rfl (by decide) (by decide)

/-- common.ts createContext, restricted to the metadata it builds for a
    production cycle: ttl defaults to Infinity via the nullish
    coalescing chain, the stale window to swr, then staleWhileRevalidate,
    then 0, and the result goes through createCacheMetaData. -/
def createContextMetadata (ttlOpt swrOpt staleOpt : JsNum) (now : Int) : CacheMetadata :=
  let ttl : JsNum := match ttlOpt with
    | .undefined | .null => .num .inf
    | x => x
  let swr : JsNum := match swrOpt with
    | .undefined | .null => (match staleOpt with | .undefined | .null => .num (.fin 0) | y => y)
    | x => x
  createCacheMetaData ttl swr none now

/-- C9: createCacheMetaData never persists the numeric value Infinity:
    an infinite ttl or stale window is mapped to null, so the metadata
    fields it constructs, including those built by createContext for
    every production cycle, are always finite numbers or null. -/
theorem c9_createCacheMetaData_no_infinity :
    (∀ (ttl swr : JsNum) (ct : Option Int) (now : Int),
      (createCacheMetaData ttl swr ct now).ttl ≠ .num .inf ∧
      (createCacheMetaData ttl swr ct now).swr ≠ .num .inf ∧
      (createCacheMetaData ttl swr ct now).ttl ≠ .undefined ∧
      (createCacheMetaData ttl swr ct now).swr ≠ .undefined) ∧
    (∀ (swr : JsNum) (ct : Option Int) (now : Int),
      (createCacheMetaData (.num .inf) swr ct now).ttl = .null) ∧
    (∀ (ttl : JsNum) (ct : Option Int) (now : Int),
      (createCacheMetaData ttl (.num .inf) ct now).swr = .null) ∧
    (∀ (ttlOpt swrOpt staleOpt : JsNum) (now : Int),
      (createContextMetadata ttlOpt swrOpt staleOpt now).ttl ≠ .num .inf ∧
      (createContextMetadata ttlOpt swrOpt staleOpt now).swr ≠ .num .inf) := by
  have base : ∀ (ttl swr : JsNum) (ct : Option Int) (now : Int),
      (createCacheMetaData ttl swr ct now).ttl ≠ .num .inf ∧
      (createCacheMetaData ttl swr ct now).swr ≠ .num .inf ∧
      (createCacheMetaData ttl swr ct now).ttl ≠ .undefined ∧
      (createCacheMetaData ttl swr ct now).swr ≠ .undefined := by
    intro ttl swr ct now
    simp only [createCacheMetaData]
    split_ifs <;> simp_all
  refine ⟨base, ?_, ?_, ?_⟩
  · intro swr ct now; simp [createCacheMetaData]
  · intro ttl ct now; simp [createCacheMetaData]
  · intro ttlOpt swrOpt staleOpt now
    exact ⟨(base _ _ _ _).1, (base _ _ _ _).2.1⟩

/-- Witness for C9 at a concrete input: an infinite ttl argument is
    persisted as null. -/
theorem c9_createCacheMetaData_no_infinity_witness :
    (createCacheMetaData (.num .inf) (.num (.fin 3)) none 0).ttl = .null :=
  c9_createCacheMetaData_no_infinity.2.1 (.num (.fin 3)) none 0

/-- What the user validator did with a candidate value: returned true,
    null, undefined, false, a reason string, a migrate object built by
    the migrate callback, or threw (synchronously or as a rejected
    promise, which the await in checkValue.ts makes equivalent). -/
inductive ValidatorOutcome (V E : Type) where
  | retTrue
  | retNull
  | retUndefined
  | retFalse
  | retReason (s : String)
  | retMigrate (v : V) (updateCache : Bool)
  | threw (e : E)
deriving DecidableEq, Repr

/-- A rejection reason produced by checkValue: a string (a reason
    return, or the literal unknown for a false return) or the thrown
    value kept as-is. -/
inductive RejectReason (E : Type) where
  | str (s : String)
  | thrown (e : E)
deriving DecidableEq, Repr

/-- The result object of checkValue.ts. -/
inductive CheckResult (V E : Type) where
  | ok (value : V) (migrated : Bool)
  | reject (reason : RejectReason E)
deriving DecidableEq, Repr

/-- checkValue.ts: a string response rejects with that reason; true,
    null and undefined accept the candidate unchanged; a migrate object
    accepts its value with its updateCache flag as the migrated flag;
    anything else (false) rejects with the reason unknown; the
    surrounding catch turns a thrown value into a rejection carrying it
    as the reason. -/
def checkValue (candidate : V) (response : ValidatorOutcome V E) : CheckResult V E :=
  match response with
  | .threw e => .reject (.thrown e)
  | .retReason s => .reject (.str s)
  | .retTrue => .ok candidate false
  | .retNull => .ok candidate false
  | .retUndefined => .ok candidate false
  | .retMigrate v u => .ok v u
  | .retFalse => .reject (.str "unknown")

/-- C8: the value check never lets a validator exception escape: a
    throw maps to a success false result carrying the thrown value as
    the reason, the same rejection shape as a false or string return;
    the accepted outcomes are exactly true, null and undefined (value
    unchanged) and a migrate object (migrated value). -/
theorem c8_checkValue_never_escapes :
    (∀ (V E : Type) (c : V) (e : E), checkValue c (.threw e) = .reject (.thrown e)) ∧
    (∀ (V E : Type) (c : V) (s : String),
      checkValue (E := E) c (.retReason s) = .reject (.str s)) ∧
    (∀ (V E : Type) (c : V), checkValue (E := E) c .retFalse = .reject (.str "unknown")) ∧
    (∀ (V E : Type) (c : V),
      checkValue (E := E) c .retTrue = .ok c false ∧
      checkValue (E := E) c .retNull = .ok c false ∧
      checkValue (E := E) c .retUndefined = .ok c false) ∧
    (∀ (V E : Type) (c v : V) (u : Bool),
      checkValue (E := E) c (.retMigrate v u) = .ok v u) ∧
    (∀ (V E : Type) (c : V) (r : ValidatorOutcome V E) (v : V) (m : Bool),
      checkValue c r = .ok v m →
        r = .retTrue ∨ r = .retNull ∨ r = .retUndefined ∨ r = .retMigrate v m) := by
  refine ⟨fun _ _ _ _ => rfl, fun _ _ _ _ => rfl, fun _ _ _ => rfl,
    fun _ _ _ => ⟨rfl, rfl, rfl⟩, fun _ _ _ _ _ => rfl, ?_⟩
  intro V E c r v m h
  cases r <;> simp_all [checkValue]

/-- Witness for C8 at a concrete input: a successful check of the
    candidate 0 against a validator returning true comes from one of
    the accepted validator outcomes. -/
theorem c8_checkValue_never_escapes_witness :
    (ValidatorOutcome.retTrue : ValidatorOutcome Int String) = .retTrue ∨
    (ValidatorOutcome.retTrue : ValidatorOutcome Int String) = .retNull ∨
    (ValidatorOutcome.retTrue : ValidatorOutcome Int String) = .retUndefined ∨
    (ValidatorOutcome.retTrue : ValidatorOutcome Int String) = .retMigrate 0 false :=
  c8_checkValue_never_escapes.2.2.2.2.2 Int String 0 .retTrue 0 false rfl

/-- An error thrown out of getFreshValue: a JavaScript value rethrown
    as-is (a production or fallback-read error) or the Error built when
    the value check rejects, carrying the reason as its cause. -/
inductive GFVError (E : Type) where
  | raw (e : E)
  | checkFailed (cause : RejectReason E)
deriving DecidableEq, Repr

/-- Everything one getFreshValue.ts call (reporter-era version)
    consumes, with awaited results passed in explicitly: the outcome of
    the user production function, the force-fresh flag, the normalized
    fallbackToCache number from the context, the outcome of the
    fallback getCacheEntry read, the clock at the fallback age
    comparison, the validator behaviour, the cycle metadata, the clock
    at the write decision and the outcome of cache.set. -/
structure GFVInput (V E : Type) where
  prodResult : Except E V
  forceFresh : Bool
  fallbackToCache : EInt
  readResult : Except E (Option (CacheEntry V))
  nowFallback : Int
  validator : V → ValidatorOutcome V E
  metadata : CacheMetadata
  nowWrite : Int
  setResult : Except E Unit

/-- What one getFreshValue call did: its resolution, the entry passed
    to cache.set when set was invoked, and whether a write error was
    reported. -/
structure GFVOutput (V E : Type) where
  result : Except (GFVError E) V
  setCall : Option (CacheEntry V)
  writeErrorReported : Bool

@[simp]
theorem EInt.add_inf (x : EInt) : x + .inf = .inf := by cases x <;> rfl

@[simp]
theorem EInt.inf_lt (y : EInt) : EInt.inf.lt y = false := by cases y <;> rfl

/-- The production attempt and the catch block of getFreshValue.ts
    (reporter era): the acquired value, or the error that the catch
    block lets escape. On failure, when the call was forced fresh and
    the fallback allowance is positive, read the cache and accept the
    entry only when present and not older than the allowance,
    rethrowing the original error otherwise; a throwing fallback read
    propagates its own error, the read not being guarded. -/
def getFreshValueAcquire (a : GFVInput V E) : Except (GFVError E) V :=
  match a.prodResult with
  | .ok v => .ok v
  | .error err =>
    if a.forceFresh && (EInt.fin 0).lt a.fallbackToCache then
      match a.readResult with
      | .error readErr => .error (.raw readErr)
      | .ok none => .error (.raw err)
      | .ok (some entry) =>
        if (EInt.fin entry.metadata.createdTime + a.fallbackToCache).lt
            (EInt.fin a.nowFallback)
        then .error (.raw err)
        else .ok entry.value
    else .error (.raw err)

/-- The rest of getFreshValue.ts: validate the acquired value, a
    rejection becoming a fatal check-failed error; then write back
    through cache.set unless the cycle metadata is already due for
    refresh now, catching and only reporting any set failure. -/
def getFreshValue (a : GFVInput V E) : GFVOutput V E :=
  match getFreshValueAcquire a with
  | .error e => { result := .error e, setCall := none, writeErrorReported := false }
  | .ok value =>
    match checkValue value (a.validator value) with
    | .reject reason =>
      { result := .error (.checkFailed reason), setCall := none, writeErrorReported := false }
    | .ok v _ =>
      if shouldRefresh a.metadata a.nowWrite ≠ .now then
        { result := .ok v
          setCall := some (createCacheEntry value a.metadata.ttl a.metadata.swr
            (some a.metadata.createdTime) a.nowWrite)
          writeErrorReported := match a.setResult with | .error _ => true | .ok _ => false }
      else { result := .ok v, setCall := none, writeErrorReported := false }

theorem getFreshValue_result_ok (a : GFVInput V E) (v w : V) (m : Bool)
    (h1 : getFreshValueAcquire a = .ok v)
    (h2 : checkValue v (a.validator v) = .ok w m) :
    (getFreshValue a).result = .ok w := by
  unfold getFreshValue
  rw [h1]
  simp only []
  rw [h2]
  by_cases hexp : shouldRefresh a.metadata a.nowWrite = .now <;> simp [hexp]

theorem getFreshValue_result_error (a : GFVInput V E) (e : GFVError E)
    (h : getFreshValueAcquire a = .error e) :
    (getFreshValue a).result = .error e := by
  unfold getFreshValue
  rw [h]

/-- C3 counterexample: a forced fresh call whose production throws and
    whose fallback cache read itself throws rejects with the read
    error, not the original production error, contradicting the claim
    that the call never throws an error arising from the fallback read. -/
theorem c3_fallback_counterexample :
    (getFreshValue ({ prodResult := .error "production failed"
                      forceFresh := true
                      fallbackToCache := .inf
                      readResult := .error "read failed"
                      nowFallback := 0
                      validator := fun _ => .retTrue
                      metadata := ⟨0, .null, .num (.fin 0), .undefined⟩
                      nowWrite := 0
                      setResult := .ok () } : GFVInput Int String)).result
      = .error (.raw "read failed") ∧
    (GFVError.raw "read failed" : GFVError String) ≠ .raw "production failed" := by
  exact ⟨rfl, by decide⟩

/-- C3 amended: when a forced fresh production throws with a positive
    fallback allowance, the call returns the cached value exactly when
    the fallback read completes and yields an entry whose age is within
    a numeric allowance (an infinite allowance accepts any entry); when
    the read completes but yields no entry or a too-old entry, or when
    the allowance does not permit the fallback at all, the original
    production error is rethrown; but when the fallback read itself
    throws, that read error propagates instead. -/
theorem c3_fallback_to_cache :
    (∀ (V E : Type) (a : GFVInput V E) (err : E) (entry : CacheEntry V),
      a.prodResult = .error err → a.forceFresh = true → a.fallbackToCache = .inf →
      a.readResult = .ok (some entry) →
      a.validator entry.value = .retTrue →
      (getFreshValue a).result = .ok entry.value) ∧
    (∀ (V E : Type) (a : GFVInput V E) (err : E) (entry : CacheEntry V) (f : Int),
      a.prodResult = .error err → a.forceFresh = true → a.fallbackToCache = .fin f →
      0 < f → a.readResult = .ok (some entry) →
      a.nowFallback - entry.metadata.createdTime ≤ f →
      a.validator entry.value = .retTrue →
      (getFreshValue a).result = .ok entry.value) ∧
    (∀ (V E : Type) (a : GFVInput V E) (err : E) (entry : CacheEntry V) (f : Int),
      a.prodResult = .error err → a.forceFresh = true → a.fallbackToCache = .fin f →
      0 < f → a.readResult = .ok (some entry) →
      f < a.nowFallback - entry.metadata.createdTime →
      (getFreshValue a).result = .error (.raw err)) ∧
    (∀ (V E : Type) (a : GFVInput V E) (err : E),
      a.prodResult = .error err → a.forceFresh = true → a.fallbackToCache = .inf →
      a.readResult = .ok none →
      (getFreshValue a).result = .error (.raw err)) ∧
    (∀ (V E : Type) (a : GFVInput V E) (err : E),
      a.prodResult = .error err →
      (a.forceFresh && (EInt.fin 0).lt a.fallbackToCache) = false →
      (getFreshValue a).result = .error (.raw err)) ∧
    (∀ (V E : Type) (a : GFVInput V E) (err readErr : E),
      a.prodResult = .error err → a.forceFresh = true → a.fallbackToCache = .inf →
      a.readResult = .error readErr →
      (getFreshValue a).result = .error (.raw readErr)) := by
  refine ⟨?_, ?_, ?_, ?_, ?_, ?_⟩
  · intro V E a err entry hp hf hfb hr hv
    have hacq : getFreshValueAcquire a = .ok entry.value := by
      simp [getFreshValueAcquire, hp, hf, hfb, hr, EInt.lt]
    exact getFreshValue_result_ok a entry.value entry.value false hacq
      (by rw [hv]; rfl)
  · intro V E a err entry f hp hf hfb hpos hr hage hv
    have hnlt : ¬(entry.metadata.createdTime + f < a.nowFallback) := by omega
    have hacq : getFreshValueAcquire a = .ok entry.value := by
      simp [getFreshValueAcquire, hp, hf, hfb, hr, EInt.lt, EInt.add_fin, hpos, hnlt]
    exact getFreshValue_result_ok a entry.value entry.value false hacq
      (by rw [hv]; rfl)
  · intro V E a err entry f hp hf hfb hpos hr hage
    have hlt : entry.metadata.createdTime + f < a.nowFallback := by omega
    refine getFreshValue_result_error a _ ?_
    simp [getFreshValueAcquire, hp, hf, hfb, hr, EInt.lt, EInt.add_fin, hpos, hlt]
  · intro V E a err hp hf hfb hr
    refine getFreshValue_result_error a _ ?_
    simp [getFreshValueAcquire, hp, hf, hfb, hr, EInt.lt]
  · intro V E a err hp hcond
    refine getFreshValue_result_error a _ ?_
    simp [getFreshValueAcquire, hp, hcond]
  · intro V E a err readErr hp hf hfb hr
    refine getFreshValue_result_error a _ ?_
    simp [getFreshValueAcquire, hp, hf, hfb, hr, EInt.lt]

/-- Witness for the amended C3 at a concrete input: with an infinite
    allowance and a cached entry, the forced fresh call whose
    production throws resolves to the cached value 42. -/
theorem c3_fallback_to_cache_witness :
    (getFreshValue ({ prodResult := .error "production failed"
                      forceFresh := true
                      fallbackToCache := .inf
                      readResult := .ok (some ⟨⟨0, .null, .num (.fin 0), .undefined⟩, 42⟩)
                      nowFallback := 10
                      validator := fun _ => .retTrue
                      metadata := ⟨0, .null, .num (.fin 0), .undefined⟩
                      nowWrite := 10
                      setResult := .ok () } : GFVInput Int String)).result = .ok 42 :=
  c3_fallback_to_cache.1 Int String _ "production failed"
    ⟨⟨0, .null, .num (.fin 0), .undefined⟩, 42⟩ rfl rfl rfl rfl rfl

/-- C6: when production succeeded and the value passed validation but
    the cycle metadata already classifies the would-be entry as due for
    refresh now (expired) at the moment of the write decision,
    cache.set is not invoked, while the produced value is still
    returned; in particular a negative ttl set by the production
    callback (with the default stale window 0) vetoes the write. -/
theorem c6_skip_write_when_expired :
    (∀ (V E : Type) (a : GFVInput V E) (v w : V) (m : Bool),
      a.prodResult = .ok v →
      checkValue v (a.validator v) = .ok w m →
      shouldRefresh a.metadata a.nowWrite = .now →
      (getFreshValue a).setCall = none ∧ (getFreshValue a).result = .ok w) ∧
    (∀ (ct now : Int), ct ≤ now →
      shouldRefresh ⟨ct, .num (.fin (-1)), .num (.fin 0), .undefined⟩ now = .now) := by
  constructor
  · intro V E a v w m hp hv hexp
    have hacq : getFreshValueAcquire a = .ok v := by
      simp [getFreshValueAcquire, hp]
    refine ⟨?_, ?_⟩
    · unfold getFreshValue
      rw [hacq]
      simp only []
      rw [hv]
      simp [hexp]
    · exact getFreshValue_result_ok a v w m hacq hv
  · intro ct now h
    have h1 : (EInt.fin now).le (EInt.fin ct + (JsNum.num (EInt.fin (-1))).orZero)
        = false := by
      simp [JsNum.orZero, EInt.truthy, EInt.add_fin, EInt.le]
      omega
    have h2 : (EInt.fin now).le (EInt.fin ct + (JsNum.num (EInt.fin (-1))).orZero
        + (staleWhileRevalidate ⟨ct, .num (.fin (-1)), .num (.fin 0), .undefined⟩).orZero)
        = false := by
      simp [staleWhileRevalidate, JsNum.truthy, EInt.truthy, JsNum.orZero,
        EInt.add_fin, EInt.le]
      omega
    simp [shouldRefresh, h1, h2]

/-- Witness for C6 at a concrete input: production returned 5, the ttl
    was set to -1, and the call returns 5 without invoking set. -/
theorem c6_skip_write_when_expired_witness :
    (getFreshValue ({ prodResult := .ok 5
                      forceFresh := false
                      fallbackToCache := .fin 0
                      readResult := .ok none
                      nowFallback := 3
                      validator := fun _ => .retTrue
                      metadata := ⟨0, .num (.fin (-1)), .num (.fin 0), .undefined⟩
                      nowWrite := 3
                      setResult := .ok () } : GFVInput Int String)).setCall = none ∧
    (getFreshValue ({ prodResult := .ok 5
                      forceFresh := false
                      fallbackToCache := .fin 0
                      readResult := .ok none
                      nowFallback := 3
                      validator := fun _ => .retTrue
                      metadata := ⟨0, .num (.fin (-1)), .num (.fin 0), .undefined⟩
                      nowWrite := 3
                      setResult := .ok () } : GFVInput Int String)).result = .ok 5 :=
  c6_skip_write_when_expired.1 Int String _ 5 5 false rfl rfl
    (c6_skip_write_when_expired.2 0 3 (by decide))

/-- C7: a failing cache.set during write-back is only reported and
    never rejects the call: when production succeeded and validation
    passed, the call resolves with the produced value even though the
    set outcome is an error, and the failure is reported exactly when
    the write was attempted. -/
theorem c7_set_failure_never_rejects :
    ∀ (V E : Type) (a : GFVInput V E) (v w : V) (m : Bool) (e : E),
      a.prodResult = .ok v →
      checkValue v (a.validator v) = .ok w m →
      a.setResult = .error e →
      (getFreshValue a).result = .ok w := by
  intro V E a v w m e hp hv hs
  exact getFreshValue_result_ok a v w m (by simp [getFreshValueAcquire, hp]) hv

/-- Witness for C7 at a concrete input: the set outcome is an error,
    yet the call resolves with the produced value 9. -/
theorem c7_set_failure_never_rejects_witness :
    (getFreshValue ({ prodResult := .ok 9
                      forceFresh := false
                      fallbackToCache := .fin 0
                      readResult := .ok none
                      nowFallback := 0
                      validator := fun _ => .retTrue
                      metadata := ⟨0, .null, .num (.fin 0), .undefined⟩
                      nowWrite := 0
                      setResult := .error "store down" } : GFVInput Int String)).result
      = .ok 9 :=
  c7_set_failure_never_rejects Int String _ 9 9 false "store down" rfl rfl rfl

/-- An untyped JavaScript value, as far as the structural checks of
    assertCacheEntry.ts can distinguish one. -/
inductive JsVal where
  | undefined
  | null
  | bool (b : Bool)
  | num (n : EInt)
  | str (s : String)
  | arr (elems : List JsVal)
  | obj (fields : List (String × JsVal))

/-- JavaScript truthiness. -/
def JsVal.truthy : JsVal → Bool
  | .undefined => false
  | .null => false
  | .bool b => b
  | .num v => v.truthy
  | .str s => decide (s ≠ "")
  | .arr _ => true
  | .obj _ => true

/-- assertCacheEntry.ts isRecord: an object that is neither null nor an
    array. -/
def JsVal.isRecord : JsVal → Bool
  | .obj _ => true
  | _ => false

/-- JavaScript property read: a missing property reads as undefined. -/
def JsVal.getField (v : JsVal) (k : String) : JsVal :=
  match v with
  | .obj fields => (fields.lookup k).getD .undefined
  | _ => .undefined

/-- The JavaScript in operator: key presence, whatever the content. -/
def JsVal.hasField (v : JsVal) (k : String) : Bool :=
  match v with
  | .obj fields => fields.any (fun p => p.1 == k)
  | _ => false

/-- The JavaScript test typeof x === number. -/
def JsVal.isNumber : JsVal → Bool
  | .num _ => true
  | _ => false

/-- The JavaScript loose test x == null, true exactly for null and
    undefined. -/
def JsVal.isNullish : JsVal → Bool
  | .undefined => true
  | .null => true
  | _ => false

/-- assertCacheEntry.ts as a predicate: the entry is a record whose
    metadata is a record with a numeric createdTime and nullish-or-
    numeric ttl and swr, and which has a value property of arbitrary
    content, including undefined or null. -/
def assertCacheEntry (entry : JsVal) : Bool :=
  entry.isRecord &&
  ((entry.getField "metadata").isRecord &&
   ((entry.getField "metadata").getField "createdTime").isNumber &&
   (((entry.getField "metadata").getField "ttl").isNullish ||
    ((entry.getField "metadata").getField "ttl").isNumber) &&
   (((entry.getField "metadata").getField "swr").isNullish ||
    ((entry.getField "metadata").getField "swr").isNumber)) &&
  entry.hasField "value"

/-- Result of getCachedValue.ts getCacheEntry: the CACHE_EMPTY symbol,
    an asserted entry, or the structural assertion error. -/
inductive ReadResult where
  | empty
  | entry (e : JsVal)
  | structuralError

/-- getCachedValue.ts getCacheEntry, as a function of the raw value the
    store get resolved with: a truthy result must pass assertCacheEntry
    and is returned as the entry; a falsy result is CACHE_EMPTY. -/
def getCacheEntry (cached : JsVal) : ReadResult :=
  if cached.truthy then
    if assertCacheEntry cached then .entry cached else .structuralError
  else .empty

/-- Read an optional-number metadata field back into the typed model;
    fields of other runtime types lie outside the embedding. -/
def JsVal.asJsNum : JsVal → Option JsNum
  | .undefined => some .undefined
  | .null => some .null
  | .num n => some (.num n)
  | _ => none

/-- Recover typed metadata from an asserted entry: defined when
    createdTime is a finite number and the optional fields are nullish
    or numbers, which assertCacheEntry guarantees for ttl and swr. -/
def entryMetadataOf (e : JsVal) : Option CacheMetadata :=
  match (e.getField "metadata").getField "createdTime",
      ((e.getField "metadata").getField "ttl").asJsNum,
      ((e.getField "metadata").getField "swr").asJsNum,
      ((e.getField "metadata").getField "swv").asJsNum with
  | .num (.fin ct), some ttl, some swr, some swv => some ⟨ct, ttl, swr, swv⟩
  | _, _, _, _ => none

/-- What one getCachedValue.ts call (reporter era) did: the value
    returned (none being the CACHE_EMPTY symbol), whether a background
    refresh was scheduled, whether the key was deleted, and whether the
    batch HANDLE hook was notified. -/
structure CachedOutcome where
  result : Option JsVal
  backgroundRefresh : Bool
  deleted : Bool
  handleCalled : Bool

/-- getCachedValue.ts (reporter era), as a function of the raw store
    get result, the clock, the configured staleWhileRevalidate option
    and the validator behaviour; none when the entry metadata falls
    outside the typed embedding. An empty read returns CACHE_EMPTY; a
    structural error is caught, deleting the key; a usable entry is
    validated, served on success (notifying the batch handle when no
    background refresh runs) and deleted on rejection; an expired entry
    without an infinite stale window falls through to CACHE_EMPTY. -/
def getCachedValue (raw : JsVal) (now : Int) (ctxSwr : EInt)
    (validator : JsVal → ValidatorOutcome JsVal E) : Option CachedOutcome :=
  match getCacheEntry raw with
  | .empty => some ⟨none, false, false, false⟩
  | .structuralError => some ⟨none, false, true, false⟩
  | .entry e =>
    (entryMetadataOf e).map fun md =>
      let exp := isExpired md now
      let staleRefresh : Bool :=
        decide (exp = .stale) || (decide (exp = .expired) && decide (ctxSwr = .inf))
      if decide (exp = .valid) || staleRefresh then
        match checkValue (e.getField "value") (validator (e.getField "value")) with
        | .ok v _ => ⟨some v, staleRefresh, false, !staleRefresh⟩
        | .reject _ => ⟨none, staleRefresh, true, false⟩
      else ⟨none, false, false, false⟩

/-- A stored entry whose value field holds undefined, with metadata
    ttl null and swr null as this library persists them. -/
def entryValueUndefined : JsVal :=
  .obj [("metadata", .obj [("createdTime", .num (.fin 0)), ("ttl", .null), ("swr", .null)]),
        ("value", .undefined)]

/-- The same stored entry with value null. -/
def entryValueNull : JsVal :=
  .obj [("metadata", .obj [("createdTime", .num (.fin 0)), ("ttl", .null), ("swr", .null)]),
        ("value", .null)]

/-- C10: an entry whose value field is undefined or null is a valid
    cache hit. Among the results the store type admits (an entry
    object, null or undefined), a read is empty exactly when no entry
    object came back; the structural assertion only requires that the
    value key exists, whatever its content; and a fresh entry carrying
    undefined or null is served by getCachedValue as a non-CACHE_EMPTY
    result, so the production function is not invoked for it. -/
theorem c10_nullish_values_are_hits :
    (∀ (raw : JsVal), (raw = .null ∨ raw = .undefined ∨ ∃ fs, raw = .obj fs) →
      (getCacheEntry raw = .empty ↔ (raw = .null ∨ raw = .undefined))) ∧
    (∀ (fs : List (String × JsVal)),
      (JsVal.obj fs).hasField "value" = true →
      ((JsVal.obj fs).getField "metadata").isRecord = true →
      (((JsVal.obj fs).getField "metadata").getField "createdTime").isNumber = true →
      (((JsVal.obj fs).getField "metadata").getField "ttl").isNullish = true →
      (((JsVal.obj fs).getField "metadata").getField "swr").isNullish = true →
      getCacheEntry (.obj fs) = .entry (.obj fs)) ∧
    getCachedValue (E := String) entryValueUndefined 50 (.fin 0) (fun _ => .retTrue) =
      some ⟨some .undefined, false, false, true⟩ ∧
    getCachedValue (E := String) entryValueNull 50 (.fin 0) (fun _ => .retTrue) =
      some ⟨some .null, false, false, true⟩ := by
  refine ⟨?_, ?_, rfl, rfl⟩
  · intro raw h
    rcases h with h | h | ⟨fs, h⟩ <;> subst h <;>
      simp [getCacheEntry, JsVal.truthy] <;> split <;> simp
  · intro fs h1 h2 h3 h4 h5
    have h0 : (JsVal.obj fs).isRecord = true := rfl
    simp [getCacheEntry, assertCacheEntry, JsVal.truthy, h0, h1, h2, h3, h4, h5]

/-- Witness for C10 at a concrete input: the store resolving null reads
    as CACHE_EMPTY. -/
theorem c10_nullish_values_are_hits_witness :
    getCacheEntry .null = .empty :=
  (c10_nullish_values_are_hits.1 .null (Or.inl rfl)).mpr (Or.inl rfl)

/-- Per-add state of a batch: the captured param and the handled flag
    of the production function closure that add returned. -/
structure ProducerState (Param : Type) where
  param : Param
  handled : Bool

/-- The state of one batch from createBatch.ts, together with the
    observable record of what happened: requests lists the params
    pushed by invocations of returned production functions in order,
    bulkCalls records the argument lists of bulk producer invocations,
    resolved the positional deliveries of the bulk results, and threw
    whether an add or a repeated submit raised after submission. -/
structure BatchState (Param Value : Type) where
  requests : List Param
  count : Int
  submitted : Bool
  autoSubmit : Bool
  producers : List (ProducerState Param)
  bulkCalls : List (List Param)
  resolved : List Value
  threw : Bool

/-- The events that can hit a batch: an add call, an invocation (first
    or repeated) of the production function returned by the i-th add,
    the HANDLE notification of the i-th add (its value was served from
    cache), and an explicit submit call. -/
inductive BEvent (Param : Type) where
  | add (p : Param)
  | invoke (i : Nat)
  | handle (i : Nat)
  | submitCall

/-- createBatch.ts submit: while invocations are outstanding, turn
    autoSubmit on and wait; a repeated submit raises; otherwise mark
    submitted and, unless no request was enqueued, call the bulk
    producer once on the ordered request params and deliver its results
    positionally. -/
def submitStep (gfv : List Param → List Value) (s : BatchState Param Value) :
    BatchState Param Value :=
  if s.count ≠ 0 then { s with autoSubmit := true }
  else if s.submitted then { s with threw := true }
  else if s.requests.isEmpty then { s with submitted := true }
  else { s with submitted := true
                bulkCalls := s.bulkCalls ++ [s.requests]
                resolved := gfv s.requests }

/-- createBatch.ts trySubmitting: decrement the outstanding counter and
    submit when autoSubmit is on. -/
def trySubmitting (gfv : List Param → List Value) (s : BatchState Param Value) :
    BatchState Param Value :=
  if s.autoSubmit = false then { s with count := s.count - 1 }
  else submitStep gfv { s with count := s.count - 1 }

/-- One event against a batch, from createBatch.ts: add raises after
    submission, else registers an unhandled producer and increments the
    counter; an invocation pushes its request (on every call) and, the
    first time per add, marks the closure handled and tries submitting;
    the HANDLE hook does the same without pushing a request; an
    explicit submit call runs submit. -/
def batchStep (gfv : List Param → List Value) (s : BatchState Param Value) :
    BEvent Param → BatchState Param Value
  | .add p =>
    if s.submitted then { s with threw := true }
    else { s with count := s.count + 1, producers := s.producers ++ [⟨p, false⟩] }
  | .invoke i =>
    match s.producers[i]? with
    | none => s
    | some pr =>
      if pr.handled then { s with requests := s.requests ++ [pr.param] }
      else
        trySubmitting gfv
          { s with requests := s.requests ++ [pr.param]
                   producers := s.producers.set i ⟨pr.param, true⟩ }
  | .handle i =>
    match s.producers[i]? with
    | none => s
    | some pr =>
      if pr.handled then s
      else trySubmitting gfv { s with producers := s.producers.set i ⟨pr.param, true⟩ }
  | .submitCall => submitStep gfv s

/-- A batch as createBatch.ts returns it. -/
def initBatch (auto : Bool) : BatchState Param Value :=
  { requests := [], count := 0, submitted := false, autoSubmit := auto,
    producers := [], bulkCalls := [], resolved := [], threw := false }

/-- Replay a list of events against a fresh batch. -/
def runBatch (gfv : List Param → List Value) (auto : Bool)
    (events : List (BEvent Param)) : BatchState Param Value :=
  events.foldl (batchStep gfv) (initBatch auto)

/-- The run invariant of a batch: the outstanding counter counts the
    producers not yet handled; nothing is delivered before submission;
    after submission nothing is outstanding; and the bulk producer ran
    at most once, on a nonempty prefix snapshot of the requests, whose
    results were delivered positionally. -/
def BatchInv (gfv : List Param → List Value) (s : BatchState Param Value) : Prop :=
  s.count = ((s.producers.countP fun pr => !pr.handled : Nat) : Int) ∧
  (s.submitted = false → s.bulkCalls = [] ∧ s.resolved = []) ∧
  (s.submitted = true → s.count = 0) ∧
  (s.bulkCalls = [] ∨
    ∃ c rest, s.bulkCalls = [c] ∧ c ≠ [] ∧ s.resolved = gfv c ∧ s.requests = c ++ rest)

theorem countP_set_exchange (l : List α) (i : Nat) (a b : α) (q : α → Bool)
    (h : l[i]? = some a) :
    (l.set i b).countP q + (if q a then 1 else 0) = l.countP q + (if q b then 1 else 0) := by
  induction l generalizing i with
  | nil => simp at h
  | cons x xs ih =>
    cases i with
    | zero =>
      simp only [List.getElem?_cons_zero, Option.some.injEq] at h
      subst h
      simp [List.countP_cons]
      omega
    | succ n =>
      simp only [List.getElem?_cons_succ] at h
      have := ih n h
      simp only [List.set_cons_succ, List.countP_cons]
      omega

theorem batchInv_submitStep (gfv : List Param → List Value) (s : BatchState Param Value)
    (hs : BatchInv gfv s) : BatchInv gfv (submitStep gfv s) := by
  obtain ⟨h1, h2, h3, h4⟩ := hs
  unfold submitStep
  split_ifs with hc hsub hreq
  · exact ⟨h1, h2, h3, h4⟩
  · exact ⟨h1, h2, h3, h4⟩
  · exact ⟨h1, by simp, fun _ => not_not.mp hc, h4⟩
  · have hsubf : s.submitted = false := by simpa using hsub
    have hbe : s.bulkCalls = [] := (h2 hsubf).1
    refine ⟨h1, by simp, fun _ => not_not.mp hc, ?_⟩
    right
    refine ⟨s.requests, [], by simp [hbe], ?_, rfl, by simp⟩
    intro h
    exact hreq (by simp [h])

theorem batchInv_trySubmitting (gfv : List Param → List Value) (s : BatchState Param Value)
    (hs : BatchInv gfv { s with count := s.count - 1 }) :
    BatchInv gfv (trySubmitting gfv s) := by
  unfold trySubmitting
  split_ifs with ha
  · exact hs
  · exact batchInv_submitStep gfv _ hs

theorem batchInv_step (gfv : List Param → List Value) (s : BatchState Param Value)
    (e : BEvent Param) (hs : BatchInv gfv s) : BatchInv gfv (batchStep gfv s e) := by
  obtain ⟨h1, h2, h3, h4⟩ := hs
  cases e with
  | add p =>
    simp only [batchStep]
    split_ifs with hsub
    · exact ⟨h1, h2, h3, h4⟩
    · have hsubf : s.submitted = false := by simpa using hsub
      refine ⟨?_, fun _ => h2 hsubf, fun h => by simp [hsubf] at h, h4⟩
      rw [h1, List.countP_append]
      simp [List.countP_cons]
  | invoke i =>
    simp only [batchStep]
    cases hpr : s.producers[i]? with
    | none => exact ⟨h1, h2, h3, h4⟩
    | some pr =>
      simp only []
      split_ifs with hh
      · refine ⟨h1, h2, h3, ?_⟩
        rcases h4 with h4 | ⟨c, rest, hb, hcne, hres, hreq⟩
        · exact Or.inl h4
        · exact Or.inr ⟨c, rest ++ [pr.param], hb, hcne, hres, by simp [hreq]⟩
      · have hhf : pr.handled = false := by simpa using hh
        have hcnt := countP_set_exchange s.producers i pr ⟨pr.param, true⟩
          (fun pr => !pr.handled) hpr
        simp [hhf] at hcnt
        have hsub : s.submitted = false := by
          by_contra hc
          simp only [Bool.not_eq_false] at hc
          have := h3 hc
          omega
        apply batchInv_trySubmitting
        refine ⟨?_, fun _ => h2 hsub, fun h => by simp [hsub] at h, ?_⟩
        · simp only []
          omega
        · rcases h4 with h4 | ⟨c, rest, hb, hcne, hres, hreq⟩
          · exact Or.inl h4
          · exact Or.inr ⟨c, rest ++ [pr.param], hb, hcne, hres, by simp [hreq]⟩
  | handle i =>
    simp only [batchStep]
    cases hpr : s.producers[i]? with
    | none => exact ⟨h1, h2, h3, h4⟩
    | some pr =>
      simp only []
      split_ifs with hh
      · exact ⟨h1, h2, h3, h4⟩
      · have hhf : pr.handled = false := by simpa using hh
        have hcnt := countP_set_exchange s.producers i pr ⟨pr.param, true⟩
          (fun pr => !pr.handled) hpr
        simp [hhf] at hcnt
        have hsub : s.submitted = false := by
          by_contra hc
          simp only [Bool.not_eq_false] at hc
          have := h3 hc
          omega
        apply batchInv_trySubmitting
        refine ⟨?_, fun _ => h2 hsub, fun h => by simp [hsub] at h, h4⟩
        simp only []
        omega
  | submitCall => exact batchInv_submitStep gfv s ⟨h1, h2, h3, h4⟩

theorem batchInv_run (gfv : List Param → List Value) (auto : Bool)
    (events : List (BEvent Param)) : BatchInv gfv (runBatch gfv auto events) := by
  have hinit : BatchInv gfv ((initBatch auto : BatchState Param Value)) := by
    refine ⟨by simp [initBatch], by simp [initBatch], by simp [initBatch], Or.inl rfl⟩
  unfold runBatch
  generalize initBatch auto = s at hinit ⊢
  induction events generalizing s with
  | nil => exact hinit
  | cons e es ih => exact ih _ (batchInv_step gfv s e hinit)

/-- C5: for every batch and every event sequence, the bulk producer is
    invoked at most once; when it is invoked its argument list is the
    ordered list of params pushed by the producer functions actually
    invoked up to submission (a prefix of all requests), and its
    results are delivered positionally to the requests at the same
    index; a HANDLE notification (value served from cache) decrements
    the outstanding counter without pushing a param while an invocation
    pushes exactly its add param; concretely, for params 1, 2, 3 with
    param 2 handled from cache, the bulk producer receives only 1 and 3
    and both requests resolve positionally. -/
theorem c5_createBatch_bulk_once_positional :
    (∀ (Param Value : Type) (gfv : List Param → List Value) (auto : Bool)
        (events : List (BEvent Param)),
      (runBatch gfv auto events).bulkCalls.length ≤ 1) ∧
    (∀ (Param Value : Type) (gfv : List Param → List Value) (auto : Bool)
        (events : List (BEvent Param)) (c : List Param),
      (runBatch gfv auto events).bulkCalls = [c] →
      c ≠ [] ∧ (runBatch gfv auto events).resolved = gfv c ∧
        ∃ rest, (runBatch gfv auto events).requests = c ++ rest) ∧
    (∀ (Param Value : Type) (gfv : List Param → List Value)
        (s : BatchState Param Value) (i : Nat),
      (batchStep gfv s (.handle i)).requests = s.requests) ∧
    (∀ (Param Value : Type) (gfv : List Param → List Value)
        (s : BatchState Param Value) (i : Nat) (pr : ProducerState Param),
      s.producers[i]? = some pr → pr.handled = false →
      (batchStep gfv s (.handle i)).count = s.count - 1 ∧
      (batchStep gfv s (.invoke i)).requests = s.requests ++ [pr.param]) ∧
    (runBatch (fun ps => ps.map (fun p => p * 10)) true
        [.add 1, .add 2, .add 3, .invoke 0, .handle 1, .invoke 2]).bulkCalls = [[1, 3]] ∧
    (runBatch (fun ps => ps.map (fun p => p * 10)) true
        [.add 1, .add 2, .add 3, .invoke 0, .handle 1, .invoke 2]).resolved = [10, 30] := by
  refine ⟨?_, ?_, ?_, ?_, rfl, rfl⟩
  · intro Param Value gfv auto events
    rcases (batchInv_run gfv auto events).2.2.2 with h | ⟨c, rest, hb, _⟩
    · simp [h]
    · simp [hb]
  · intro Param Value gfv auto events c hc
    rcases (batchInv_run gfv auto events).2.2.2 with h | ⟨c2, rest, hb, hcne, hres, hreq⟩
    · simp [hc] at h
    · rw [hc] at hb
      simp only [List.cons.injEq, and_true] at hb
      subst hb
      exact ⟨hcne, hres, rest, hreq⟩
  · intro Param Value gfv s i
    simp only [batchStep]
    cases hpr : s.producers[i]? with
    | none => rfl
    | some pr =>
      simp only []
      split_ifs with hh
      · rfl
      · unfold trySubmitting submitStep
        split_ifs <;> rfl
  · intro Param Value gfv s i pr hpr hh
    constructor
    · simp only [batchStep, hpr, hh, Bool.false_eq_true, if_false]
      unfold trySubmitting submitStep
      split_ifs <;> rfl
    · simp only [batchStep, hpr, hh, Bool.false_eq_true, if_false]
      unfold trySubmitting submitStep
      split_ifs <;> rfl

/-- Witness for C5 at a concrete input: the single bulk call of the
    three-param scenario received the nonempty list of invoked params
    1 and 3 and its results were delivered positionally. -/
theorem c5_createBatch_bulk_once_positional_witness :
    ([1, 3] : List Nat) ≠ [] ∧
    (runBatch (fun ps => ps.map (fun p => p * 10)) true
        [.add 1, .add 2, .add 3, .invoke 0, .handle 1, .invoke 2]).resolved
      = [1, 3].map (fun p => p * 10) ∧
    ∃ rest, (runBatch (fun ps => ps.map (fun p => p * 10)) true
        [.add 1, .add 2, .add 3, .invoke 0, .handle 1, .invoke 2]).requests
      = [1, 3] ++ rest :=
  c5_createBatch_bulk_once_positional.2.1 Nat Nat (fun ps => ps.map (fun p => p * 10)) true
    [.add 1, .add 2, .add 3, .invoke 0, .handle 1, .invoke 2] [1, 3] rfl

/-- cachified.ts metadata construction for one call: ttl defaults to
    null, an infinite stale window is stored as a null swv, createdTime
    is the clock at call start. -/
def cachifiedCallMetadata (ttl : Option EInt) (swr : EInt) (now : Int) : CacheMetadata :=
  { createdTime := now
    ttl := match ttl with | none => .null | some v => .num v
    swr := .undefined
    swv := if swr = .inf then .null else .num swr }

/-- A record of the per-store pending-values map for one key: the
    metadata recorded at registration and the id of the freshValue race
    promise, which the resolve hook of the record settles early. -/
structure PendingRec where
  metadata : CacheMetadata
  promise : Nat

/-- The coordinator state of cachified.ts for one key of one store:
    the pending map entry, the settlement of each race promise by id,
    the then-links wired from a later registration to the promise of
    the older pending record it found, the number of productions
    started, and the promise each finished call awaits, in call order. -/
structure CoordState (V : Type) where
  pending : Option PendingRec
  promises : List (Option V)
  links : List (Nat × Nat)
  productions : Nat
  awaiting : List Nat

/-- Settle promise id p with value v when it is still pending: the race
    resolves and its finally deletes the pending map entry for the key.
    The second component reports whether this settled anything. -/
def settleOne (s : CoordState V) (p : Nat) (v : V) : CoordState V × Bool :=
  match s.promises[p]? with
  | some none => ({ s with promises := s.promises.set p (some v), pending := none }, true)
  | _ => (s, false)

/-- Settlement with propagation along then-links: when promise p
    settles, a link wired from p resolves the earlier record's promise
    with the same value, and so on down the chain. Links always point
    to promises created earlier, so the id bounds the chain length. -/
def resolveFuel : Nat → CoordState V → Nat → V → CoordState V
  | 0, s, p, v => (settleOne s p v).1
  | fuel + 1, s, p, v =>
    match settleOne s p v with
    | (s1, true) =>
      match s1.links.find? (fun l => l.1 == p) with
      | some l => resolveFuel fuel s1 l.2 v
      | none => s1
    | (s1, false) => s1

/-- A production feeding promise p completed with value v. -/
def resolveP (s : CoordState V) (p : Nat) (v : V) : CoordState V :=
  resolveFuel (p + 1) s p v

/-- One call entering the pending-values block of cachified.ts after
    its cache read found nothing usable: when a pending record exists
    and its recorded metadata needs no refresh, the call returns that
    promise directly; otherwise it starts a new production racing a
    manually resolvable promise, wires an existing older record to
    resolve from this race, and registers itself as the pending record. -/
def enterStep (s : CoordState V) (m : CacheMetadata) (now : Int) : CoordState V :=
  match s.pending with
  | some rec' =>
    if shouldRefreshOld rec'.metadata now = .no then
      { s with awaiting := s.awaiting ++ [rec'.promise] }
    else
      let p := s.promises.length
      { s with promises := s.promises ++ [none]
               productions := s.productions + 1
               links := s.links ++ [(p, rec'.promise)]
               pending := some ⟨m, p⟩
               awaiting := s.awaiting ++ [p] }
  | none =>
    let p := s.promises.length
    { s with promises := s.promises ++ [none]
             productions := s.productions + 1
             pending := some ⟨m, p⟩
             awaiting := s.awaiting ++ [p] }

/-- The coordinator before any call arrived. -/
def initCoord (V : Type) : CoordState V :=
  { pending := none, promises := [], links := [], productions := 0, awaiting := [] }

/-- Replay the entry blocks of a group of calls, in arrival order, each
    with the metadata its context built and its arrival time. -/
def runEnters (s : CoordState V) (calls : List (CacheMetadata × Int)) : CoordState V :=
  List.foldl (fun s c => enterStep s c.1 c.2) s calls

/-- The coordinator state after the first call registered its pending
    record and k calls in total are awaiting its race promise. -/
def reuseState (V : Type) (m1 : CacheMetadata) (k : Nat) : CoordState V :=
  { pending := some ⟨m1, 0⟩, promises := [none], links := [],
    productions := 1, awaiting := List.replicate k 0 }

theorem runEnters_reuse (V : Type) (m1 : CacheMetadata) (k : Nat)
    (rest : List (CacheMetadata × Int))
    (hfresh : ∀ p ∈ rest, shouldRefreshOld m1 p.2 = .no) :
    runEnters (reuseState V m1 k) rest = reuseState V m1 (k + rest.length) := by
  induction rest generalizing k with
  | nil => simp [runEnters]
  | cons c cs ih =>
    have hc : shouldRefreshOld m1 c.2 = .no := hfresh c (by simp)
    have hstep : enterStep (reuseState V m1 k) c.1 c.2 = reuseState V m1 (k + 1) := by
      simp [enterStep, reuseState, hc, ← List.replicate_succ']
    have hrest : ∀ p ∈ cs, shouldRefreshOld m1 p.2 = .no :=
      fun p hp => hfresh p (by simp [hp])
    have hlen : k + 1 + cs.length = k + (cs.length + 1) := by omega
    simp only [runEnters, List.foldl_cons]
    rw [show (List.foldl (fun s c => enterStep s c.1 c.2) (enterStep _ c.1 c.2) cs :
        CoordState V) = runEnters (enterStep _ c.1 c.2) cs from rfl]
    rw [hstep, ih (k + 1) hrest, hlen]
    rfl

/-- C1: for a group of concurrent calls against the same store and key
    that all begin while the cache holds nothing usable, where every
    call after the first enters the pending block while the first
    production is still pending and its recorded metadata still needs
    no refresh, exactly one production is started, every call awaits
    the first race promise, and once that production settles with a
    value every call resolves to that one value. -/
theorem c1_concurrent_calls_single_production :
    ∀ (V : Type) (v : V) (m1 : CacheMetadata) (t1 : Int)
      (rest : List (CacheMetadata × Int)),
      (∀ p ∈ rest, shouldRefreshOld m1 p.2 = .no) →
      (runEnters (initCoord V) ((m1, t1) :: rest)).productions = 1 ∧
      (runEnters (initCoord V) ((m1, t1) :: rest)).awaiting =
        List.replicate (rest.length + 1) 0 ∧
      (resolveP (runEnters (initCoord V) ((m1, t1) :: rest)) 0 v).promises = [some v] ∧
      (∀ p ∈ (runEnters (initCoord V) ((m1, t1) :: rest)).awaiting,
        (resolveP (runEnters (initCoord V) ((m1, t1) :: rest)) 0 v).promises[p]? =
          some (some v)) := by
  intro V v m1 t1 rest hfresh
  have hfirst : enterStep (initCoord V) m1 t1 = reuseState V m1 1 := by
    simp [enterStep, initCoord, reuseState]
  have hrun : runEnters (initCoord V) ((m1, t1) :: rest) =
      reuseState V m1 (1 + rest.length) := by
    simp only [runEnters, List.foldl_cons]
    rw [show (List.foldl (fun s c => enterStep s c.1 c.2) (enterStep (initCoord V) m1 t1)
        rest : CoordState V) = runEnters (enterStep (initCoord V) m1 t1) rest from rfl]
    rw [hfirst, runEnters_reuse V m1 1 rest hfresh]
  have hres : (resolveP (runEnters (initCoord V) ((m1, t1) :: rest)) 0 v).promises
      = [some v] := by
    rw [hrun]
    rfl
  refine ⟨by rw [hrun]; rfl, by rw [hrun, Nat.add_comm]; rfl, hres, ?_⟩
  intro p hp
  rw [hrun] at hp
  have hp0 : p = 0 := List.eq_of_mem_replicate hp
  rw [hres, hp0]
  rfl

/-- Witness for C1 at a concrete input: three calls, all with null ttl
    metadata built by a call context at time 0, the later two arriving
    at times 5 and 9 while the first production is pending; one
    production runs and every call resolves to the produced value 7. -/
theorem c1_concurrent_calls_single_production_witness :
    (runEnters (initCoord Nat)
        ((cachifiedCallMetadata none (.fin 0) 0, 0) ::
          [(cachifiedCallMetadata none (.fin 0) 5, 5),
           (cachifiedCallMetadata none (.fin 0) 9, 9)])).productions = 1 ∧
    (runEnters (initCoord Nat)
        ((cachifiedCallMetadata none (.fin 0) 0, 0) ::
          [(cachifiedCallMetadata none (.fin 0) 5, 5),
           (cachifiedCallMetadata none (.fin 0) 9, 9)])).awaiting =
      List.replicate ([(cachifiedCallMetadata none (.fin 0) 5, 5),
           (cachifiedCallMetadata none (.fin 0) 9, 9)].length + 1) 0 ∧
    (resolveP (runEnters (initCoord Nat)
        ((cachifiedCallMetadata none (.fin 0) 0, 0) ::
          [(cachifiedCallMetadata none (.fin 0) 5, 5),
           (cachifiedCallMetadata none (.fin 0) 9, 9)])) 0 7).promises = [some 7] ∧
    (∀ p ∈ (runEnters (initCoord Nat)
        ((cachifiedCallMetadata none (.fin 0) 0, 0) ::
          [(cachifiedCallMetadata none (.fin 0) 5, 5),
           (cachifiedCallMetadata none (.fin 0) 9, 9)])).awaiting,
      (resolveP (runEnters (initCoord Nat)
        ((cachifiedCallMetadata none (.fin 0) 0, 0) ::
          [(cachifiedCallMetadata none (.fin 0) 5, 5),
           (cachifiedCallMetadata none (.fin 0) 9, 9)])) 0 7).promises[p]? =
        some (some 7)) :=
  c1_concurrent_calls_single_production Nat 7 (cachifiedCallMetadata none (.fin 0) 0) 0
    [(cachifiedCallMetadata none (.fin 0) 5, 5), (cachifiedCallMetadata none (.fin 0) 9, 9)]
    (by decide)

end Cachified
